import Mathlib

/-!
Verification of the transformer geometry engine
(packages/transformer/src/Transformer.ts).

The development shallowly embeds the geometry core over the real numbers:
points and 2D affine matrices follow the semantics of the out-of-scope
@pixi/math primitives (a matrix (a, b, c, d, tx, ty) sends (x, y) to
(a x + c y + tx, b x + d y + ty); the builder methods translate/rotate/scale
left-multiply the corresponding primitive matrix onto the receiver, and
prepend(m) replaces the receiver M by m * M).  Gesture handlers are modelled
as pure functions from the transformer state and the pointer sample to the
next state, mirroring the source line by line.
-/

noncomputable section

/-- A 2D point, the value type of @pixi/math Point. -/
@[ext]
structure Pt where
  x : ℝ
  y : ℝ

/-- A 2D affine matrix with entries (a, b, c, d, tx, ty), as in @pixi/math. -/
@[ext]
structure Mat where
  a : ℝ
  b : ℝ
  c : ℝ
  d : ℝ
  tx : ℝ
  ty : ℝ

/-- Matrix.apply: (x, y) goes to (a x + c y + tx, b x + d y + ty). -/
def Mat.apply (m : Mat) (p : Pt) : Pt :=
  ⟨m.a * p.x + m.c * p.y + m.tx, m.b * p.x + m.d * p.y + m.ty⟩

/-- The identity matrix, Matrix#identity(). -/
def Mat.id : Mat := ⟨1, 0, 0, 1, 0, 0⟩

/-- Matrix product; (m.mul n).apply p = m.apply (n.apply p). -/
def Mat.mul (m n : Mat) : Mat :=
  ⟨m.a * n.a + m.c * n.b, m.b * n.a + m.d * n.b,
   m.a * n.c + m.c * n.d, m.b * n.c + m.d * n.d,
   m.a * n.tx + m.c * n.ty + m.tx, m.b * n.tx + m.d * n.ty + m.ty⟩

instance : Mul Mat := ⟨Mat.mul⟩

/-- A pure translation matrix. -/
def translationM (x y : ℝ) : Mat := ⟨1, 0, 0, 1, x, y⟩

/-- A pure rotation matrix (counterclockwise by θ in pixi's frame). -/
def rotationM (θ : ℝ) : Mat :=
  ⟨Real.cos θ, Real.sin θ, -Real.sin θ, Real.cos θ, 0, 0⟩

/-- A pure scaling matrix. -/
def scalingM (sx sy : ℝ) : Mat := ⟨sx, 0, 0, sy, 0, 0⟩

/-- Matrix#translate of @pixi/math: m.translate(x, y) = T(x, y) * m. -/
def Mat.translate (m : Mat) (x y : ℝ) : Mat := translationM x y * m

/-- Matrix#rotate of @pixi/math: m.rotate(θ) = R(θ) * m. -/
def Mat.rotate (m : Mat) (θ : ℝ) : Mat := rotationM θ * m

/-- Matrix#scale of @pixi/math: m.scale(sx, sy) = S(sx, sy) * m. -/
def Mat.scale (m : Mat) (sx sy : ℝ) : Mat := scalingM sx sy * m

/-- Matrix#prepend of @pixi/math: m.prepend(n) = n * m. -/
def Mat.prepend (m n : Mat) : Mat := n * m

/-- Math.atan2(y, x): the signed angle of the vector (x, y), in (-π, π]. -/
def atan2 (y x : ℝ) : ℝ := Complex.arg ⟨x, y⟩

/-- Truncation toward zero, as used by the JavaScript % operator. -/
def trunc (r : ℝ) : ℤ := if 0 ≤ r then ⌊r⌋ else ⌈r⌉

/-- The JavaScript remainder operator `x % y` on finite doubles:
truncated-division remainder, carrying the sign of the dividend. -/
def fmod (x y : ℝ) : ℝ := x - y * (trunc (x / y) : ℝ)

/-- Math.PI * 2, the modulus used by snapAngle. -/
def twoPi : ℝ := Real.pi * 2

/-- The linear scan of Transformer#snapAngle (source lines 1010-1016): return
the first snap value within tolerance of the angle, else the angle itself. -/
def snapLoop (angle tol : ℝ) : List ℝ → ℝ
  | [] => angle
  | s :: rest => if |angle - s| ≤ tol then s else snapLoop angle tol rest

/-- Transformer#snapAngle (source lines 1001-1019): normalize the angle by
`angle % (Math.PI * 2)`; if the snap list has exactly one entry or the
tolerance is zero (falsy), return the normalized angle unchanged; otherwise
scan the snap list in order. -/
def snapAngle (angle tol : ℝ) (snaps : List ℝ) : ℝ :=
  let angle := fmod angle twoPi
  if snaps.length = 1 ∨ tol = 0 then angle else snapLoop angle tol snaps

/-- The AngleSnapper behaviour as worded in the spec (section 4.4): normalize
into (-2π, 2π) via modulo; empty set, singleton set or falsy tolerance return
the normalized angle unchanged; otherwise the first snap value within
tolerance wins, else the normalized angle. -/
def snapAngleSpec (angle tol : ℝ) (snaps : List ℝ) : ℝ :=
  let normalized := fmod angle twoPi
  if snaps = [] ∨ snaps.length = 1 ∨ tol = 0 then normalized
  else ((snaps.find? fun s => decide (|normalized - s| ≤ tol)).getD normalized)

/-- An axis-aligned rectangle (x, y, width, height). -/
structure Rect where
  x : ℝ
  y : ℝ
  width : ℝ
  height : ℝ

/-- Modelled from the spec: the OrientedBounds data type comes from the
@pixi-essentials/bounds package, which is not under src/.  Per the spec
(sections 3 and 4.1) it stores an axis-aligned `innerBounds` rectangle in a
rotated frame together with the frame `rotation`, and the derived corners and
center are pure functions of those two fields, obtained by re-rotating the
inner rectangle through `rotation` (the inverse of the un-rotation matrix
`R(-rotation)` used by calculateGroupOrientedBounds, which rotates about the
world origin). -/
structure OrientedB where
  innerBounds : Rect
  rotation : ℝ

/-- The world-space point of the rotated frame with inner coordinates (u, v). -/
def worldPt (θ u v : ℝ) : Pt := (rotationM θ).apply ⟨u, v⟩

/-- Modelled from the spec: derived top-left corner of an OrientedBounds. -/
def OrientedB.topLeft (b : OrientedB) : Pt :=
  worldPt b.rotation b.innerBounds.x b.innerBounds.y

/-- Modelled from the spec: derived top-right corner of an OrientedBounds. -/
def OrientedB.topRight (b : OrientedB) : Pt :=
  worldPt b.rotation (b.innerBounds.x + b.innerBounds.width) b.innerBounds.y

/-- Modelled from the spec: derived bottom-left corner of an OrientedBounds. -/
def OrientedB.bottomLeft (b : OrientedB) : Pt :=
  worldPt b.rotation b.innerBounds.x (b.innerBounds.y + b.innerBounds.height)

/-- Modelled from the spec: derived bottom-right corner of an OrientedBounds. -/
def OrientedB.bottomRight (b : OrientedB) : Pt :=
  worldPt b.rotation (b.innerBounds.x + b.innerBounds.width)
    (b.innerBounds.y + b.innerBounds.height)

/-- Modelled from the spec: derived center of an OrientedBounds (the inner
rectangle's center, re-rotated into world space; this is exactly the
back-solved center of calculateGroupOrientedBounds, source line 1174). -/
def OrientedB.center (b : OrientedB) : Pt :=
  worldPt b.rotation (b.innerBounds.x + b.innerBounds.width / 2)
    (b.innerBounds.y + b.innerBounds.height / 2)

/-- Midpoint of two points, as drawHandles computes edge-handle positions. -/
def midPt (p q : Pt) : Pt := ⟨(p.x + q.x) / 2, (p.y + q.y) / 2⟩

/-- A scene-graph member as the geometry core sees it: its local bounding
rectangle, and the world transform the core reads and left-multiplies onto. -/
structure DisplayObj where
  localBounds : Rect
  worldTransform : Mat

/-- Transformer.calculateTransformedCorners (source lines 1030-1054): the four
corners of the local bounds, pushed through the world transform, in the order
top-left, top-right, bottom-right, bottom-left. -/
def calculateTransformedCorners (o : DisplayObj) : List Pt :=
  [o.worldTransform.apply ⟨o.localBounds.x, o.localBounds.y⟩,
   o.worldTransform.apply ⟨o.localBounds.x + o.localBounds.width, o.localBounds.y⟩,
   o.worldTransform.apply
     ⟨o.localBounds.x + o.localBounds.width, o.localBounds.y + o.localBounds.height⟩,
   o.worldTransform.apply ⟨o.localBounds.x, o.localBounds.y + o.localBounds.height⟩]

/-- Number.MAX_VALUE, the initial accumulator of the min/max scan
in calculateGroupOrientedBounds. -/
def maxValue : ℝ := 2 ^ 1024 - 2 ^ 971

/-- Transformer.calculateGroupOrientedBounds (source lines 1113-1178): collect
all member corner points, un-rotate them by -rotation about the origin, take
the min/max scan for innerBounds (accumulators seeded with ±Number.MAX_VALUE),
and keep the caller-supplied rotation.  The final center back-solve of the
source (applying the inverse of the un-rotation matrix to the inner center) is
exactly the derived OrientedB.center of this model. -/
def calculateGroupOrientedBounds (group : List DisplayObj) (rotation : ℝ) :
    OrientedB :=
  let frames := (group.map calculateTransformedCorners).flatten
  let matrix := Mat.id.rotate (-rotation)
  let pts := frames.map matrix.apply
  let minX := pts.foldl (fun acc p => if p.x < acc then p.x else acc) maxValue
  let minY := pts.foldl (fun acc p => if p.y < acc then p.y else acc) maxValue
  let maxX := pts.foldl (fun acc p => if p.x > acc then p.x else acc) (-maxValue)
  let maxY := pts.foldl (fun acc p => if p.y > acc then p.y else acc) (-maxValue)
  ⟨⟨minX, minY, maxX - minX, maxY - minY⟩, rotation⟩

/-- Modelled from the spec: multiplyTransform (utils/multiplyTransform, not
under src/) applies the delta matrix onto a member in world space,
left-multiplied onto its existing transform (spec sections 4.2 and 6).
This is Transformer#prependTransform's per-member loop (source lines 968-981). -/
def prependTransform (group : List DisplayObj) (delta : Mat) : List DisplayObj :=
  group.map fun o => ⟨o.localBounds, delta * o.worldTransform⟩

/-- The nine scale handles. -/
inductive ScaleHandle where
  | topLeft | topCenter | topRight
  | middleLeft | middleCenter | middleRight
  | bottomLeft | bottomCenter | bottomRight
deriving DecidableEq

/-- The two skew handles. -/
inductive SkewHandle where
  | skewHorizontal | skewVertical
deriving DecidableEq

/-- SCALE_COMPONENTS (source lines 110-122): outward direction of each scale
handle along the x and y axes; the center handle has both components zero. -/
def scaleComp : ScaleHandle → Int × Int
  | .topLeft => (-1, -1)
  | .topCenter => (0, -1)
  | .topRight => (1, -1)
  | .middleLeft => (-1, 0)
  | .middleCenter => (0, 0)
  | .middleRight => (1, 0)
  | .bottomLeft => (-1, 1)
  | .bottomCenter => (0, 1)
  | .bottomRight => (1, 1)

/-- The scale-handle positions as drawHandles lays them out from the group
bounds (source lines 846-854). -/
def handlePosition (b : OrientedB) : ScaleHandle → Pt
  | .topLeft => b.topLeft
  | .topCenter => midPt b.topLeft b.topRight
  | .topRight => b.topRight
  | .middleLeft => midPt b.topLeft b.bottomLeft
  | .middleCenter => midPt b.topLeft b.bottomRight
  | .middleRight => midPt b.topRight b.bottomRight
  | .bottomLeft => b.bottomLeft
  | .bottomCenter => midPt b.bottomLeft b.bottomRight
  | .bottomRight => b.bottomRight

/-- The anchor point on the corner or edge opposite a dragged scale handle,
as the spec words the pivot invariant: the opposite corner for corner handles,
the midpoint of the opposite edge for edge handles, the center for the
(disabled) center handle. -/
def oppositeAnchor (b : OrientedB) : ScaleHandle → Pt
  | .topLeft => b.bottomRight
  | .topCenter => midPt b.bottomLeft b.bottomRight
  | .topRight => b.bottomLeft
  | .middleLeft => midPt b.topRight b.bottomRight
  | .middleCenter => b.center
  | .middleRight => midPt b.topLeft b.bottomLeft
  | .bottomLeft => b.topRight
  | .bottomCenter => midPt b.topLeft b.topRight
  | .bottomRight => b.topLeft

/-- DEFAULT_ROTATION_SNAPS (source lines 141-150). -/
def DEFAULT_ROTATION_SNAPS : List ℝ :=
  [Real.pi / 4, Real.pi / 2, Real.pi * 3 / 4, Real.pi,
   -Real.pi / 4, -Real.pi / 2, -Real.pi * 3 / 4, -Real.pi]

/-- DEFAULT_SKEW_SNAPS (source lines 164-167). -/
def DEFAULT_SKEW_SNAPS : List ℝ := [Real.pi / 4, -Real.pi / 4]

/-- The mutable state of a Transformer instance that the gesture handlers
read and write: the group, the cached group bounds, the two skew scalars and
the configuration options. -/
structure TransformerState where
  group : List DisplayObj
  groupBounds : OrientedB
  skewX : ℝ
  skewY : ℝ
  rotationSnaps : List ℝ
  rotationSnapTolerance : ℝ
  skewSnaps : List ℝ
  skewSnapTolerance : ℝ
  centeredScaling : Bool
  transientGroupTilt : Bool

/-- Transformer#rotateGroup (source lines 585-622): pivot at the bounds
center; candidate rotation is the old bounds rotation plus the atan2 angle
difference subtended by the handle origin and the pointer destination; snap
the candidate, re-derive the delta from the snapped value, apply the rotation
matrix about the pivot to every member, recompute the bounds at the snapped
rotation, and advance both skew scalars by the applied delta. -/
def rotateGroup (st : TransformerState) (origin destination : Pt) :
    TransformerState :=
  let bounds := st.groupBounds
  let rOrigin := bounds.center
  let orgAngle := atan2 (origin.y - rOrigin.y) (origin.x - rOrigin.x)
  let dstAngle := atan2 (destination.y - rOrigin.y) (destination.x - rOrigin.x)
  let deltaAngle := dstAngle - orgAngle
  let newRotation := st.groupBounds.rotation + deltaAngle
  let newRotation := snapAngle newRotation st.rotationSnapTolerance st.rotationSnaps
  let deltaAngle := newRotation - st.groupBounds.rotation
  let matrix :=
    ((Mat.id.translate (-rOrigin.x) (-rOrigin.y)).rotate deltaAngle).translate
      rOrigin.x rOrigin.y
  let group := prependTransform st.group matrix
  ⟨group, calculateGroupOrientedBounds group newRotation,
   st.skewX + deltaAngle, st.skewY + deltaAngle,
   st.rotationSnaps, st.rotationSnapTolerance, st.skewSnaps,
   st.skewSnapTolerance, st.centeredScaling, st.transientGroupTilt⟩

/-- The delta matrix computed by Transformer#scaleGroup (source lines
630-689) from the cached group bounds, the centeredScaling option, the
dragged handle (whose current position drawHandles derived from the same
bounds) and the new pointer position. -/
def scaleGroupMatrix (b : OrientedB) (centeredScaling : Bool)
    (handle : ScaleHandle) (pointer : Pt) : Mat :=
  let xDir := (scaleComp handle).1
  let yDir := (scaleComp handle).2
  let angle := b.rotation
  let innerBounds := b.innerBounds
  let handlePos := handlePosition b handle
  let dx := pointer.x - handlePos.x
  let dy := pointer.y - handlePos.y
  let uxvec := (b.topRight.x - b.topLeft.x) / innerBounds.width
  let uyvec := (b.topRight.y - b.topLeft.y) / innerBounds.width
  let vxvec := (b.bottomLeft.x - b.topLeft.x) / innerBounds.height
  let vyvec := (b.bottomLeft.y - b.topLeft.y) / innerBounds.height
  let du := dx * uxvec + dy * uyvec
  let dv := dx * vxvec + dy * vyvec
  let sx := 1 + du * (xDir : ℝ) / innerBounds.width
  let sy := 1 + dv * (yDir : ℝ) / innerBounds.height
  let m1 := Mat.id
  let m2 :=
    if xDir ≠ 0 then
      let hsOrigin :=
        if centeredScaling = false then
          (if xDir = 1 then b.topLeft else b.topRight)
        else b.center
      ((((m1.translate (-hsOrigin.x) (-hsOrigin.y)).rotate (-angle)).scale
          sx 1).rotate angle).translate hsOrigin.x hsOrigin.y
    else m1
  let m3 :=
    if yDir ≠ 0 then
      let vsOrigin :=
        if centeredScaling = false then
          (if yDir = 1 then b.topLeft else b.bottomLeft)
        else b.center
      ((((m2.translate (-vsOrigin.x) (-vsOrigin.y)).rotate (-angle)).scale
          1 sy).rotate angle).translate vsOrigin.x vsOrigin.y
    else m2
  m3

/-- Transformer#scaleGroup as a state transition: apply the delta matrix to
every member and recompute the group bounds at the unchanged rotation. -/
def scaleGroup (st : TransformerState) (handle : ScaleHandle) (pointer : Pt) :
    TransformerState :=
  let matrix := scaleGroupMatrix st.groupBounds st.centeredScaling handle pointer
  let group := prependTransform st.group matrix
  ⟨group, calculateGroupOrientedBounds group st.groupBounds.rotation,
   st.skewX, st.skewY,
   st.rotationSnaps, st.rotationSnapTolerance, st.skewSnaps,
   st.skewSnapTolerance, st.centeredScaling, st.transientGroupTilt⟩

/-- Modelled from the spec: createHorizontalSkew (utils/skewTransform, not
under src/) builds the horizontal shear matrix that slants the x axis by the
angle, offsetting x by tan(angle) times y. -/
def createHorizontalSkew (angle : ℝ) : Mat := ⟨1, 0, Real.tan angle, 1, 0, 0⟩

/-- Modelled from the spec: createVerticalSkew (utils/skewTransform, not
under src/) builds the vertical shear matrix that slants the y axis by the
angle, offsetting y by tan(angle) times x. -/
def createVerticalSkew (angle : ℝ) : Mat := ⟨1, Real.tan angle, 0, 1, 0, 0⟩

/-- Transformer#skewGroup (source lines 697-745): pivot at the bounds center.
The horizontal handle recomputes skewX as the snapped atan2 of the pointer
about the center and applies un-shear(-old)/shear(new) vertical-skew factors;
the vertical handle recomputes skewY as the snapped (atan2 - π/2), applies
un-shear(old)/shear(-new) horizontal-skew factors (the sign is inverted
because the y axis is flipped) and subtracts the skew delta from the rotation
handed to the bounds recompute. -/
def skewGroup (st : TransformerState) (handle : SkewHandle) (pointer : Pt) :
    TransformerState :=
  let bounds := st.groupBounds
  let dst := pointer
  let sOrigin := bounds.center
  let base := Mat.id.translate (-sOrigin.x) (-sOrigin.y)
  match handle with
  | .skewHorizontal =>
    let newSkewX := atan2 (dst.y - sOrigin.y) (dst.x - sOrigin.x)
    let newSkewX := snapAngle newSkewX st.skewSnapTolerance st.skewSnaps
    let matrix :=
      (((base.prepend (createVerticalSkew (-st.skewX))).prepend
          (createVerticalSkew newSkewX)).translate sOrigin.x sOrigin.y)
    let rotation := st.groupBounds.rotation
    let group := prependTransform st.group matrix
    ⟨group, calculateGroupOrientedBounds group rotation,
     newSkewX, st.skewY,
     st.rotationSnaps, st.rotationSnapTolerance, st.skewSnaps,
     st.skewSnapTolerance, st.centeredScaling, st.transientGroupTilt⟩
  | .skewVertical =>
    let newSkew := atan2 (dst.y - sOrigin.y) (dst.x - sOrigin.x) - Real.pi / 2
    let newSkewY := snapAngle newSkew st.skewSnapTolerance st.skewSnaps
    let matrix :=
      (((base.prepend (createHorizontalSkew st.skewY)).prepend
          (createHorizontalSkew (-newSkewY))).translate sOrigin.x sOrigin.y)
    let rotation := st.groupBounds.rotation - (newSkewY - st.skewY)
    let group := prependTransform st.group matrix
    ⟨group, calculateGroupOrientedBounds group rotation,
     st.skewX, newSkewY,
     st.rotationSnaps, st.rotationSnapTolerance, st.skewSnaps,
     st.skewSnapTolerance, st.centeredScaling, st.transientGroupTilt⟩

/-- Transformer#commitGroup (source lines 751-757): after a drag ends, if
transientGroupTilt is not disabled and the group has more than one member,
recompute the group bounds at rotation 0; otherwise do nothing. -/
def commitGroup (st : TransformerState) : TransformerState :=
  if st.transientGroupTilt = true ∧ 1 < st.group.length then
    ⟨st.group, calculateGroupOrientedBounds st.group 0,
     st.skewX, st.skewY,
     st.rotationSnaps, st.rotationSnapTolerance, st.skewSnaps,
     st.skewSnapTolerance, st.centeredScaling, st.transientGroupTilt⟩
  else st

/-- The matrix that scales by (sx, sy) in the frame rotated by θ about the
pivot o: the composed product built by each per-axis block of scaleGroup. -/
def scaleAboutM (o : Pt) (θ sx sy : ℝ) : Mat :=
  translationM o.x o.y *
    (rotationM θ * (scalingM sx sy * (rotationM (-θ) * translationM (-o.x) (-o.y))))

/-- The 100 by 50 rectangle at the origin used by the worked example. -/
def demoRect : Rect := ⟨0, 0, 100, 50⟩

/-- A single unrotated member whose world corners are demoRect's corners. -/
def demoObj : DisplayObj := ⟨demoRect, Mat.id⟩

/-- A transformer over the single demo member, default options. -/
def demoState : TransformerState :=
  ⟨[demoObj], ⟨demoRect, 0⟩, 0, 0,
   DEFAULT_ROTATION_SNAPS, Real.pi / 90, DEFAULT_SKEW_SNAPS, Real.pi / 90,
   false, true⟩

/-- A transformer over a two-member group with a tilted cached bounds. -/
def demoStatePair : TransformerState :=
  ⟨[demoObj, demoObj], ⟨demoRect, 1⟩, 0, 0,
   DEFAULT_ROTATION_SNAPS, Real.pi / 90, DEFAULT_SKEW_SNAPS, Real.pi / 90,
   false, true⟩

theorem Mat.mul_def (m n : Mat) : m * n = Mat.mul m n := rfl

theorem Mat.apply_mul (m n : Mat) (p : Pt) :
    (m * n).apply p = m.apply (n.apply p) := by
  simp only [Mat.mul_def, Mat.mul, Mat.apply]
  exact Pt.ext (by ring) (by ring)

theorem Mat.id_mul (m : Mat) : Mat.id * m = m := by
  simp only [Mat.mul_def, Mat.mul, Mat.id]
  exact Mat.ext (by ring) (by ring) (by ring) (by ring) (by ring) (by ring)

theorem Mat.mul_id (m : Mat) : m * Mat.id = m := by
  simp only [Mat.mul_def, Mat.mul, Mat.id]
  exact Mat.ext (by ring) (by ring) (by ring) (by ring) (by ring) (by ring)

theorem Mat.mul_assoc (m n k : Mat) : m * n * k = m * (n * k) := by
  simp only [Mat.mul_def, Mat.mul]
  exact Mat.ext (by ring) (by ring) (by ring) (by ring) (by ring) (by ring)

theorem Mat.id_apply (p : Pt) : Mat.id.apply p = p := by
  simp only [Mat.apply, Mat.id]
  exact Pt.ext (by ring) (by ring)

theorem scaleAboutM_mul_def (o : Pt) (θ sx sy : ℝ) (m : Mat) :
    translationM o.x o.y *
      (rotationM θ * (scalingM sx sy * (rotationM (-θ) *
        (translationM (-o.x) (-o.y) * m))))
      = scaleAboutM o θ sx sy * m := by
  simp only [scaleAboutM, Mat.mul_assoc]

theorem scaleAboutM_worldPt (θ ou ov sx sy u v : ℝ) :
    (scaleAboutM (worldPt θ ou ov) θ sx sy).apply (worldPt θ u v)
      = worldPt θ (ou + sx * (u - ou)) (ov + sy * (v - ov)) := by
  have hsc : Real.sin θ ^ 2 + Real.cos θ ^ 2 = 1 := Real.sin_sq_add_cos_sq θ
  simp only [scaleAboutM, Mat.apply_mul]
  simp only [worldPt, rotationM, translationM, scalingM, Mat.apply,
    Real.cos_neg, Real.sin_neg]
  refine Pt.ext ?_ ?_
  · linear_combination (Real.cos θ * sx * (u - ou) - Real.sin θ * sy * (v - ov)) * hsc
  · linear_combination (Real.sin θ * sx * (u - ou) + Real.cos θ * sy * (v - ov)) * hsc

theorem scaleAboutM_fix_x (θ ou ov s v : ℝ) :
    (scaleAboutM (worldPt θ ou ov) θ s 1).apply (worldPt θ ou v)
      = worldPt θ ou v := by
  have h1 : ou + s * (ou - ou) = ou := by ring
  have h2 : ov + 1 * (v - ov) = v := by ring
  rw [scaleAboutM_worldPt, h1, h2]

theorem scaleAboutM_fix_y (θ ou ov s u : ℝ) :
    (scaleAboutM (worldPt θ ou ov) θ 1 s).apply (worldPt θ u ov)
      = worldPt θ u ov := by
  have h1 : ou + 1 * (u - ou) = u := by ring
  have h2 : ov + s * (ov - ov) = ov := by ring
  rw [scaleAboutM_worldPt, h1, h2]

theorem scaleAboutM_fix_self (θ ou ov sx sy : ℝ) :
    (scaleAboutM (worldPt θ ou ov) θ sx sy).apply (worldPt θ ou ov)
      = worldPt θ ou ov := by
  have h1 : ou + sx * (ou - ou) = ou := by ring
  have h2 : ov + sy * (ov - ov) = ov := by ring
  rw [scaleAboutM_worldPt, h1, h2]

theorem midPt_worldPt (θ u v u2 v2 : ℝ) :
    midPt (worldPt θ u v) (worldPt θ u2 v2)
      = worldPt θ ((u + u2) / 2) ((v + v2) / 2) := by
  simp only [midPt, worldPt, rotationM, Mat.apply]
  exact Pt.ext (by ring) (by ring)

theorem twoPi_pos : 0 < twoPi := by
  have := Real.pi_pos
  unfold twoPi
  linarith

theorem abs_sub_trunc_lt_one (r : ℝ) : |r - (trunc r : ℝ)| < 1 := by
  unfold trunc
  by_cases h : 0 ≤ r
  · rw [if_pos h]
    have h1 : (⌊r⌋ : ℝ) ≤ r := Int.floor_le r
    have h2 : r < ⌊r⌋ + 1 := Int.lt_floor_add_one r
    rw [abs_of_nonneg (by linarith)]
    linarith
  · rw [if_neg h]
    have h1 : r ≤ (⌈r⌉ : ℝ) := Int.le_ceil r
    have h2 : (⌈r⌉ : ℝ) < r + 1 := Int.ceil_lt_add_one r
    rw [abs_of_nonpos (by linarith)]
    linarith

theorem abs_fmod_lt (x y : ℝ) (hy : y ≠ 0) : |fmod x y| < |y| := by
  have h := abs_sub_trunc_lt_one (x / y)
  have hxy : fmod x y = y * (x / y - (trunc (x / y) : ℝ)) := by
    field_simp [fmod]
  rw [hxy, abs_mul]
  have hypos : 0 < |y| := abs_pos.mpr hy
  calc |y| * |x / y - (trunc (x / y) : ℝ)| < |y| * 1 :=
        mul_lt_mul_of_pos_left h hypos
    _ = |y| := mul_one _

theorem fmod_of_abs_lt (x y : ℝ) (h : |x| < |y|) : fmod x y = x := by
  have hy : y ≠ 0 := by
    intro h0
    rw [h0, abs_zero] at h
    exact absurd (lt_of_le_of_lt (abs_nonneg x) h) (lt_irrefl 0)
  have hr : |x / y| < 1 := by
    rw [abs_div]
    exact (div_lt_one (abs_pos.mpr hy)).mpr h
  have ht : trunc (x / y) = 0 := by
    unfold trunc
    by_cases hs : 0 ≤ x / y
    · rw [if_pos hs]
      refine Int.floor_eq_zero_iff.mpr ?_
      constructor
      · exact hs
      · calc x / y ≤ |x / y| := le_abs_self _
          _ < 1 := hr
    · rw [if_neg hs]
      refine Int.ceil_eq_zero_iff.mpr ?_
      constructor
      · calc (-1 : ℝ) < -|x / y| := by linarith
          _ ≤ x / y := neg_abs_le _
      · linarith [not_le.mp hs]
  simp [fmod, ht]

theorem fmod_fmod (x y : ℝ) (hy : y ≠ 0) : fmod (fmod x y) y = fmod x y :=
  fmod_of_abs_lt _ _ (abs_fmod_lt x y hy)

theorem fmod_of_nonneg_of_lt (x y : ℝ) (hx : 0 ≤ x) (hxy : x < y) :
    fmod x y = x := by
  refine fmod_of_abs_lt x y ?_
  rw [abs_of_nonneg hx, abs_of_pos (lt_of_le_of_lt hx hxy)]
  exact hxy

theorem snapLoop_of_all_fail (n tol : ℝ) (l : List ℝ)
    (h : ∀ s ∈ l, ¬(|n - s| ≤ tol)) : snapLoop n tol l = n := by
  induction l with
  | nil => rfl
  | cons a l ih =>
    rw [snapLoop, if_neg (h a (List.mem_cons_self a l))]
    exact ih fun s hs => h s (List.mem_cons_of_mem a hs)

theorem snapLoop_spec (n tol : ℝ) (l : List ℝ) :
    ((∀ s ∈ l, ¬(|n - s| ≤ tol)) ∧ snapLoop n tol l = n) ∨
    ∃ l1 s l2, l = l1 ++ s :: l2 ∧ snapLoop n tol l = s ∧ |n - s| ≤ tol ∧
      ∀ t ∈ l1, ¬(|n - t| ≤ tol) := by
  induction l with
  | nil => exact Or.inl ⟨by simp, rfl⟩
  | cons a l ih =>
    by_cases ha : |n - a| ≤ tol
    · exact Or.inr ⟨[], a, l, rfl, by rw [snapLoop, if_pos ha], ha, by simp⟩
    · rcases ih with ⟨hall, hres⟩ | ⟨l1, s, l2, hl, hres, hs, hpre⟩
      · refine Or.inl ⟨?_, ?_⟩
        · intro s hs
          rcases List.mem_cons.mp hs with h | h
          · rw [h]; exact ha
          · exact hall s h
        · rw [snapLoop, if_neg ha, hres]
      · refine Or.inr ⟨a :: l1, s, l2, by rw [hl]; rfl,
          by rw [snapLoop, if_neg ha, hres], hs, ?_⟩
        intro t ht
        rcases List.mem_cons.mp ht with h | h
        · rw [h]; exact ha
        · exact hpre t h

theorem snapLoop_head_hit (tol s : ℝ) (l1 l2 : List ℝ) (htol : 0 ≤ tol)
    (h : ∀ t ∈ l1, ¬(|s - t| ≤ tol)) : snapLoop s tol (l1 ++ s :: l2) = s := by
  induction l1 with
  | nil =>
    rw [List.nil_append, snapLoop, if_pos]
    rw [sub_self, abs_zero]
    exact htol
  | cons a l1 ih =>
    rw [List.cons_append, snapLoop, if_neg (h a (List.mem_cons_self a l1))]
    exact ih fun t ht => h t (List.mem_cons_of_mem a ht)

theorem snapLoop_eq_findD (n tol : ℝ) (l : List ℝ) :
    snapLoop n tol l = ((l.find? fun s => decide (|n - s| ≤ tol)).getD n) := by
  induction l with
  | nil => rfl
  | cons a l ih =>
    by_cases ha : |n - a| ≤ tol
    · rw [snapLoop, if_pos ha, List.find?_cons_of_pos]
      · rfl
      · exact decide_eq_true ha
    · rw [snapLoop, if_neg ha, List.find?_cons_of_neg, ih]
      simpa using ha

theorem calculateGroupOrientedBounds_rotation (group : List DisplayObj)
    (rotation : ℝ) : (calculateGroupOrientedBounds group rotation).rotation
      = rotation := rfl

theorem prependTransform_id (group : List DisplayObj) :
    prependTransform group Mat.id = group := by
  unfold prependTransform
  have h : ∀ o : DisplayObj, (⟨o.localBounds, Mat.id * o.worldTransform⟩ : DisplayObj) = o := by
    intro o
    rw [Mat.id_mul]
  rw [show (fun o : DisplayObj => (⟨o.localBounds, Mat.id * o.worldTransform⟩ : DisplayObj)) = fun o => o from funext h]
  exact List.map_id' group

theorem fmod_small_nonneg (x y : ℝ) (hx : 0 ≤ x) (hxy : x < y) :
    fmod x y = x := fmod_of_nonneg_of_lt x y hx hxy

theorem lt_twoPi_of_lt_six (x : ℝ) (h : x < 6) : x < twoPi := by
  have hpi : 3 < Real.pi := Real.pi_gt_three
  unfold twoPi
  linarith

/-- C3: the claim that a singleton snap set within tolerance snaps exactly is
false on the code: snapAngle(1/2, 1, [2/5]) has |normalized - 2/5| ≤ 1 yet
returns the normalized angle 1/2, because a one-entry snap list takes the
early-return branch. -/
theorem snapAngle_singleton_counterexample :
    0 < (1 : ℝ) ∧ |fmod (1/2 : ℝ) twoPi - 2/5| ≤ 1 ∧
      snapAngle (1/2 : ℝ) 1 [2/5] ≠ 2/5 := by
  have hf : fmod (1/2 : ℝ) twoPi = 1/2 :=
    fmod_of_nonneg_of_lt _ _ (by norm_num) (lt_twoPi_of_lt_six _ (by norm_num))
  refine ⟨by norm_num, ?_, ?_⟩
  · rw [hf, show (1/2 : ℝ) - 2/5 = 1/10 by norm_num,
      abs_of_nonneg (by norm_num : (0:ℝ) ≤ 1/10)]
    norm_num
  · show (if (([2/5] : List ℝ).length = 1 ∨ (1 : ℝ) = 0) then fmod (1/2) twoPi
          else snapLoop (fmod (1/2) twoPi) 1 [2/5]) ≠ 2/5
    have hc : (([2/5] : List ℝ).length = 1 ∨ (1 : ℝ) = 0) := Or.inl (by simp)
    rw [if_pos hc, hf]
    norm_num

/-- C3 (amended): singleton snap sets bypass snapping - for every angle,
tolerance and single snap value the normalized angle is returned unchanged -
while for every snap set with at least two entries whose first entry s is
within a nonzero tolerance of the normalized angle, snapAngle returns
exactly s. -/
theorem snapAngle_first_of_many (a tol s t : ℝ) (rest : List ℝ)
    (htol : tol ≠ 0) (hnear : |fmod a twoPi - s| ≤ tol) :
    (∀ b tol2 c : ℝ, snapAngle b tol2 [c] = fmod b twoPi) ∧
    snapAngle a tol (s :: t :: rest) = s := by
  constructor
  · intro b tol2 c
    show (if (([c] : List ℝ).length = 1 ∨ tol2 = 0) then fmod b twoPi
          else snapLoop (fmod b twoPi) tol2 [c]) = fmod b twoPi
    have hc : (([c] : List ℝ).length = 1 ∨ tol2 = 0) := Or.inl (by simp)
    rw [if_pos hc]
  · show (if ((s :: t :: rest).length = 1 ∨ tol = 0) then fmod a twoPi
          else snapLoop (fmod a twoPi) tol (s :: t :: rest)) = s
    rw [if_neg, snapLoop, if_pos hnear]
    push_neg
    exact ⟨by simp, htol⟩

/-- C3 (amended) at a concrete input: tolerance 1 is nonzero, the normalized
angle 1/2 is within 1 of the first entry 2/5 of a three-entry snap set, the
singleton early return holds universally, and snapAngle returns exactly
2/5. -/
theorem snapAngle_first_of_many_witness :
    (1 : ℝ) ≠ 0 ∧ |fmod (1/2 : ℝ) twoPi - 2/5| ≤ 1 ∧
      ((∀ b tol2 c : ℝ, snapAngle b tol2 [c] = fmod b twoPi) ∧
        snapAngle (1/2 : ℝ) 1 [2/5, 7, 9] = 2/5) := by
  have hf : fmod (1/2 : ℝ) twoPi = 1/2 :=
    fmod_of_nonneg_of_lt _ _ (by norm_num) (lt_twoPi_of_lt_six _ (by norm_num))
  have hnear : |fmod (1/2 : ℝ) twoPi - 2/5| ≤ 1 := by
    rw [hf, show (1/2 : ℝ) - 2/5 = 1/10 by norm_num,
      abs_of_nonneg (by norm_num : (0:ℝ) ≤ 1/10)]
    norm_num
  exact ⟨by norm_num, hnear,
    snapAngle_first_of_many (1/2) 1 (2/5) 7 [9] (by norm_num) hnear⟩

/-- C4: snapping is not idempotent for every snap set: with snaps [0, 1] and
tolerance 1, snapAngle(3/2) = 1 (the second entry catches it), but snapping
the result again gives 0 (the first entry catches 1). -/
theorem snapAngle_idempotence_counterexample :
    snapAngle (snapAngle (3/2 : ℝ) 1 [0, 1]) 1 [0, 1]
      ≠ snapAngle (3/2 : ℝ) 1 [0, 1] := by
  have h32 : fmod (3/2 : ℝ) twoPi = 3/2 :=
    fmod_of_nonneg_of_lt _ _ (by norm_num) (lt_twoPi_of_lt_six _ (by norm_num))
  have h1 : fmod (1 : ℝ) twoPi = 1 :=
    fmod_of_nonneg_of_lt _ _ (by norm_num) (lt_twoPi_of_lt_six _ (by norm_num))
  have hguard : ¬((([0, 1] : List ℝ).length = 1) ∨ (1 : ℝ) = 0) := by
    push_neg
    exact ⟨by simp, by norm_num⟩
  have hna : ¬(|(3/2 : ℝ) - 0| ≤ 1) := by
    rw [sub_zero, abs_of_nonneg (by norm_num : (0:ℝ) ≤ 3/2)]
    norm_num
  have hyes : |(3/2 : ℝ) - 1| ≤ 1 := by
    rw [show (3/2 : ℝ) - 1 = 1/2 by norm_num,
      abs_of_nonneg (by norm_num : (0:ℝ) ≤ 1/2)]
    norm_num
  have h10 : |(1 : ℝ) - 0| ≤ 1 := by rw [sub_zero, abs_one]
  have hinner : snapAngle (3/2 : ℝ) 1 [0, 1] = 1 := by
    show (if (([0, 1] : List ℝ).length = 1 ∨ (1 : ℝ) = 0) then fmod (3/2) twoPi
          else snapLoop (fmod (3/2) twoPi) 1 [0, 1]) = 1
    rw [if_neg hguard, h32, snapLoop, if_neg hna, snapLoop, if_pos hyes]
  have houter : snapAngle (1 : ℝ) 1 [0, 1] = 0 := by
    show (if (([0, 1] : List ℝ).length = 1 ∨ (1 : ℝ) = 0) then fmod 1 twoPi
          else snapLoop (fmod 1 twoPi) 1 [0, 1]) = 0
    rw [if_neg hguard, h1, snapLoop, if_pos h10]
  rw [hinner, houter]
  norm_num

/-- C4 (amended): snapping is idempotent whenever every snap value is its own
normalization (e.g. it lies in (-2π, 2π)) and distinct snap entries are more
than the tolerance apart - conditions met by the default snap sets.  The
counterexample above shows both restrictions are needed in general. -/
theorem snapAngle_idempotent_of_separated (x tol : ℝ) (snaps : List ℝ)
    (hnorm : ∀ s ∈ snaps, fmod s twoPi = s)
    (hsep : snaps.Pairwise fun a b => tol < |a - b|) :
    snapAngle (snapAngle x tol snaps) tol snaps = snapAngle x tol snaps := by
  have h2pi : twoPi ≠ 0 := ne_of_gt twoPi_pos
  show (if (snaps.length = 1 ∨ tol = 0) then fmod (snapAngle x tol snaps) twoPi
        else snapLoop (fmod (snapAngle x tol snaps) twoPi) tol snaps)
      = snapAngle x tol snaps
  by_cases hg : snaps.length = 1 ∨ tol = 0
  · rw [if_pos hg]
    have hx : snapAngle x tol snaps = fmod x twoPi := by
      show (if (snaps.length = 1 ∨ tol = 0) then fmod x twoPi
            else snapLoop (fmod x twoPi) tol snaps) = fmod x twoPi
      rw [if_pos hg]
    rw [hx, fmod_fmod x twoPi h2pi]
  · rw [if_neg hg]
    have hx : snapAngle x tol snaps = snapLoop (fmod x twoPi) tol snaps := by
      show (if (snaps.length = 1 ∨ tol = 0) then fmod x twoPi
            else snapLoop (fmod x twoPi) tol snaps)
          = snapLoop (fmod x twoPi) tol snaps
      rw [if_neg hg]
    rw [hx]
    rcases snapLoop_spec (fmod x twoPi) tol snaps with ⟨hall, hres⟩ |
      ⟨l1, s, l2, hl, hres, hclose, hpre⟩
    · rw [hres, fmod_fmod x twoPi h2pi]
      exact snapLoop_of_all_fail _ _ _ hall
    · rw [hres]
      have hs_mem : s ∈ snaps := by
        rw [hl]
        exact List.mem_append_right _ (List.mem_cons_self s l2)
      rw [hnorm s hs_mem]
      have htol : 0 ≤ tol := le_trans (abs_nonneg _) hclose
      have hpre2 : ∀ t ∈ l1, ¬(|s - t| ≤ tol) := by
        intro t ht
        have hsep2 := hsep
        rw [hl, List.pairwise_append] at hsep2
        have hts := hsep2.2.2 t ht s (List.mem_cons_self s l2)
        rw [not_le, abs_sub_comm]
        exact hts
      rw [hl]
      exact snapLoop_head_hit tol s l1 l2 htol hpre2

/-- C4 (amended) at a concrete input: the snap set [0, 1] with tolerance 1/4
satisfies both side conditions and snapping 3 twice equals snapping it once. -/
theorem snapAngle_idempotent_of_separated_witness :
    (∀ s ∈ ([0, 1] : List ℝ), fmod s twoPi = s) ∧
      (([0, 1] : List ℝ).Pairwise fun a b => (1/4 : ℝ) < |a - b|) ∧
      snapAngle (snapAngle (3 : ℝ) (1/4) [0, 1]) (1/4) [0, 1]
        = snapAngle (3 : ℝ) (1/4) [0, 1] := by
  have h0 : fmod (0 : ℝ) twoPi = 0 :=
    fmod_of_nonneg_of_lt _ _ (le_refl 0) (lt_twoPi_of_lt_six _ (by norm_num))
  have h1 : fmod (1 : ℝ) twoPi = 1 :=
    fmod_of_nonneg_of_lt _ _ (by norm_num) (lt_twoPi_of_lt_six _ (by norm_num))
  have hnorm : ∀ s ∈ ([0, 1] : List ℝ), fmod s twoPi = s := by
    intro s hs
    rcases List.mem_cons.mp hs with h | h
    · rw [h]; exact h0
    · rw [List.mem_singleton.mp h]; exact h1
  have hsep : (([0, 1] : List ℝ)).Pairwise fun a b => (1/4 : ℝ) < |a - b| := by
    refine List.Pairwise.cons ?_ (List.pairwise_singleton _ _)
    intro b hb
    rw [List.mem_singleton.mp hb, zero_sub, abs_neg, abs_one]
    norm_num
  exact ⟨hnorm, hsep,
    snapAngle_idempotent_of_separated 3 (1/4) [0, 1] hnorm hsep⟩

/-- C5: snapAngle agrees everywhere with the spec's description (normalize by
modulo into (-2π, 2π); empty, singleton, or zero-tolerance cases return the
normalized angle; otherwise first snap value within tolerance in list order,
else the normalized angle), and the normalized angle indeed lies in the open
interval (-2π, 2π). -/
theorem snapAngle_matches_spec (angle tol : ℝ) (snaps : List ℝ) :
    snapAngle angle tol snaps = snapAngleSpec angle tol snaps ∧
      |fmod angle twoPi| < twoPi := by
  constructor
  · show (if (snaps.length = 1 ∨ tol = 0) then fmod angle twoPi
          else snapLoop (fmod angle twoPi) tol snaps)
        = (if (snaps = [] ∨ snaps.length = 1 ∨ tol = 0) then fmod angle twoPi
          else ((snaps.find? fun s =>
            decide (|fmod angle twoPi - s| ≤ tol)).getD (fmod angle twoPi)))
    by_cases hg : snaps.length = 1 ∨ tol = 0
    · rw [if_pos hg, if_pos (Or.inr hg)]
    · rw [if_neg hg]
      by_cases hnil : snaps = []
      · subst hnil
        rw [if_pos (Or.inl rfl)]
        rfl
      · push_neg at hg
        rw [if_neg (by push_neg; exact ⟨hnil, hg.1, hg.2⟩)]
        exact snapLoop_eq_findD _ _ _
  · have h := abs_fmod_lt angle twoPi (ne_of_gt twoPi_pos)
    rwa [abs_of_pos twoPi_pos] at h

/-- C6: the claim that an empty group yields zero-size bounds is false on the
code: the min/max accumulators never update, so the width comes out as
-Number.MAX_VALUE - Number.MAX_VALUE, which is not zero (the rotation part of
the claim does hold). -/
theorem calculateGroupOrientedBounds_empty_counterexample :
    (calculateGroupOrientedBounds [] 0).rotation = 0 ∧
      (calculateGroupOrientedBounds [] 0).innerBounds.width ≠ 0 := by
  refine ⟨rfl, ?_⟩
  show -maxValue - maxValue ≠ 0
  unfold maxValue
  norm_num

/-- C6 (amended): an empty group returns a degenerate bounds whose rotation
equals the given reference rotation but whose innerBounds width and height are
the sentinel -2 * Number.MAX_VALUE - negative, not zero. -/
theorem calculateGroupOrientedBounds_empty (r : ℝ) :
    (calculateGroupOrientedBounds [] r).rotation = r ∧
      (calculateGroupOrientedBounds [] r).innerBounds.width = -(2 * maxValue) ∧
      (calculateGroupOrientedBounds [] r).innerBounds.height = -(2 * maxValue) ∧
      (calculateGroupOrientedBounds [] r).innerBounds.width < 0 := by
  refine ⟨rfl, ?_, ?_, ?_⟩
  · show -maxValue - maxValue = -(2 * maxValue)
    ring
  · show -maxValue - maxValue = -(2 * maxValue)
    ring
  · show -maxValue - maxValue < 0
    unfold maxValue
    norm_num

/-- C9: commitGroup recomputes the group bounds at rotation 0 exactly when
transientGroupTilt is enabled and the group has more than one member; in every
other case the whole state is untouched, and member transforms are never
touched. -/
theorem commitGroup_transient_tilt (st : TransformerState) :
    ((st.transientGroupTilt = true ∧ 1 < st.group.length) →
        (commitGroup st).groupBounds.rotation = 0) ∧
    (¬(st.transientGroupTilt = true ∧ 1 < st.group.length) →
        commitGroup st = st) ∧
    (commitGroup st).group = st.group := by
  unfold commitGroup
  by_cases h : st.transientGroupTilt = true ∧ 1 < st.group.length
  · rw [if_pos h]
    exact ⟨fun _ => rfl, fun hc => absurd h hc, rfl⟩
  · rw [if_neg h]
    exact ⟨fun hc => absurd hc h, fun _ => rfl, rfl⟩

/-- C9 at concrete inputs: a two-member group with transientGroupTilt on and
a tilted cached bounds commits to rotation 0, while the one-member transformer
is left entirely unchanged by commitGroup. -/
theorem commitGroup_transient_tilt_witness :
    ((demoStatePair.transientGroupTilt = true ∧ 1 < demoStatePair.group.length) ∧
      (commitGroup demoStatePair).groupBounds.rotation = 0) ∧
    (¬(demoState.transientGroupTilt = true ∧ 1 < demoState.group.length) ∧
      commitGroup demoState = demoState) := by
  have hpair : demoStatePair.transientGroupTilt = true ∧
      1 < demoStatePair.group.length := ⟨rfl, by norm_num [demoStatePair]⟩
  have hsingle : ¬(demoState.transientGroupTilt = true ∧
      1 < demoState.group.length) := by
    intro h
    exact absurd h.2 (by norm_num [demoState])
  exact ⟨⟨hpair, (commitGroup_transient_tilt demoStatePair).1 hpair⟩,
    ⟨hsingle, (commitGroup_transient_tilt demoState).2.1 hsingle⟩⟩

/-- C1: for every rotate gesture, the candidate rotation is the old bounds
rotation plus the signed atan2 difference between handle origin and pointer
destination about the bounds center; that candidate is snapped first and the
applied delta re-derived from the snapped value (snap-then-diff); the matrix
applied to every member is exactly the rotation about the center by
snapped - old; the bounds rotation afterwards equals the snapped rotation;
and skewX and skewY both advance by exactly that applied delta. -/
theorem rotateGroup_snap_then_diff (st : TransformerState) (origin dst : Pt) :
    (rotateGroup st origin dst).groupBounds.rotation
        = snapAngle (st.groupBounds.rotation
            + (atan2 (dst.y - st.groupBounds.center.y)
                  (dst.x - st.groupBounds.center.x)
              - atan2 (origin.y - st.groupBounds.center.y)
                  (origin.x - st.groupBounds.center.x)))
          st.rotationSnapTolerance st.rotationSnaps ∧
    (rotateGroup st origin dst).group
        = prependTransform st.group
            (translationM st.groupBounds.center.x st.groupBounds.center.y
              * rotationM ((rotateGroup st origin dst).groupBounds.rotation
                  - st.groupBounds.rotation)
              * translationM (-st.groupBounds.center.x)
                  (-st.groupBounds.center.y)) ∧
    (rotateGroup st origin dst).skewX
        = st.skewX + ((rotateGroup st origin dst).groupBounds.rotation
            - st.groupBounds.rotation) ∧
    (rotateGroup st origin dst).skewY
        = st.skewY + ((rotateGroup st origin dst).groupBounds.rotation
            - st.groupBounds.rotation) := by
  refine ⟨rfl, ?_, rfl, rfl⟩
  simp only [rotateGroup, Mat.translate, Mat.rotate, Mat.mul_id, Mat.mul_assoc,
    calculateGroupOrientedBounds_rotation]

/-- C10: the vertical-skew gesture sets skewY to the snapped value of
atan2(pointer - center) - π/2, applies the incremental shear with inverted
sign (un-shear by the old skewY, then shear by the negated new skewY, pivoted
at the bounds center), and the bounds rotation afterwards is perturbed by
exactly -(newSkewY - oldSkewY); the horizontal-skew gesture sets skewX to the
snapped atan2(pointer - center) and leaves the bounds rotation unchanged. -/
theorem skewGroup_vertical_horizontal (st : TransformerState) (p : Pt) :
    (skewGroup st SkewHandle.skewVertical p).skewY
        = snapAngle (atan2 (p.y - st.groupBounds.center.y)
              (p.x - st.groupBounds.center.x) - Real.pi / 2)
            st.skewSnapTolerance st.skewSnaps ∧
    (skewGroup st SkewHandle.skewVertical p).group
        = prependTransform st.group
            (translationM st.groupBounds.center.x st.groupBounds.center.y
              * createHorizontalSkew (-(skewGroup st SkewHandle.skewVertical p).skewY)
              * createHorizontalSkew st.skewY
              * translationM (-st.groupBounds.center.x)
                  (-st.groupBounds.center.y)) ∧
    (skewGroup st SkewHandle.skewVertical p).groupBounds.rotation
        = st.groupBounds.rotation
            - ((skewGroup st SkewHandle.skewVertical p).skewY - st.skewY) ∧
    (skewGroup st SkewHandle.skewHorizontal p).skewX
        = snapAngle (atan2 (p.y - st.groupBounds.center.y)
              (p.x - st.groupBounds.center.x))
            st.skewSnapTolerance st.skewSnaps ∧
    (skewGroup st SkewHandle.skewHorizontal p).groupBounds.rotation
        = st.groupBounds.rotation := by
  refine ⟨rfl, ?_, rfl, rfl, rfl⟩
  simp only [skewGroup, Mat.translate, Mat.prepend, Mat.mul_id, Mat.mul_assoc,
    calculateGroupOrientedBounds_rotation]

/-- C7: dragging the middleCenter scale handle is a guaranteed no-op: both
direction components of SCALE_COMPONENTS are zero, both per-axis blocks are
skipped, the composed matrix is the identity, and every member's transform is
left unchanged, for every pointer position. -/
theorem scaleGroup_middleCenter_noop (st : TransformerState) (p : Pt) :
    scaleGroupMatrix st.groupBounds st.centeredScaling
        ScaleHandle.middleCenter p = Mat.id ∧
    (scaleGroup st ScaleHandle.middleCenter p).group = st.group := by
  have hm : scaleGroupMatrix st.groupBounds st.centeredScaling
      ScaleHandle.middleCenter p = Mat.id := by
    simp [scaleGroupMatrix, scaleComp]
  refine ⟨hm, ?_⟩
  show prependTransform st.group
      (scaleGroupMatrix st.groupBounds st.centeredScaling
        ScaleHandle.middleCenter p) = st.group
  rw [hm, prependTransform_id]

theorem scaleAboutM_fold (o : Pt) (θ sx sy : ℝ) :
    translationM o.x o.y *
      (rotationM θ * (scalingM sx sy * (rotationM (-θ) *
        translationM (-o.x) (-o.y)))) = scaleAboutM o θ sx sy := rfl

/-- C2: for every scale gesture on a non-degenerate bounds, the composed
matrix fixes the pivot: with centeredScaling off, the anchor point on the
corner or edge opposite the dragged handle keeps its world position; with
centeredScaling on, the bounds center keeps its world position.  This covers
the corner handles, where the two per-axis matrices compose. -/
theorem scaleGroup_pivot_invariant (b : OrientedB) (h : ScaleHandle) (p : Pt)
    (_hw : b.innerBounds.width ≠ 0) (_hh : b.innerBounds.height ≠ 0) :
    (scaleGroupMatrix b false h p).apply (oppositeAnchor b h)
        = oppositeAnchor b h ∧
    (scaleGroupMatrix b true h p).apply b.center = b.center := by
  cases h with
  | topLeft =>
    constructor
    · simp only [oppositeAnchor, scaleGroupMatrix, scaleComp]
      norm_num
      simp only [Mat.translate, Mat.rotate, Mat.scale, Mat.mul_id]
      rw [scaleAboutM_fold, scaleAboutM_mul_def, Mat.apply_mul]
      simp only [OrientedB.topLeft, OrientedB.topRight, OrientedB.bottomLeft,
        OrientedB.bottomRight]
      rw [scaleAboutM_fix_x, scaleAboutM_fix_y]
    · simp only [scaleGroupMatrix, scaleComp]
      norm_num
      simp only [Mat.translate, Mat.rotate, Mat.scale, Mat.mul_id]
      rw [scaleAboutM_fold, scaleAboutM_mul_def, Mat.apply_mul]
      simp only [OrientedB.center]
      rw [scaleAboutM_fix_self, scaleAboutM_fix_self]
  | topCenter =>
    constructor
    · simp only [oppositeAnchor, scaleGroupMatrix, scaleComp]
      norm_num
      simp only [Mat.translate, Mat.rotate, Mat.scale, Mat.mul_id]
      rw [scaleAboutM_fold]
      simp only [OrientedB.topLeft, OrientedB.topRight, OrientedB.bottomLeft,
        OrientedB.bottomRight]
      rw [midPt_worldPt,
        show ((b.innerBounds.y + b.innerBounds.height)
            + (b.innerBounds.y + b.innerBounds.height)) / 2
          = b.innerBounds.y + b.innerBounds.height from by ring,
        scaleAboutM_fix_y]
    · simp only [scaleGroupMatrix, scaleComp]
      norm_num
      simp only [Mat.translate, Mat.rotate, Mat.scale, Mat.mul_id]
      rw [scaleAboutM_fold]
      simp only [OrientedB.center]
      rw [scaleAboutM_fix_self]
  | topRight =>
    constructor
    · simp only [oppositeAnchor, scaleGroupMatrix, scaleComp]
      norm_num
      simp only [Mat.translate, Mat.rotate, Mat.scale, Mat.mul_id]
      rw [scaleAboutM_fold, scaleAboutM_mul_def, Mat.apply_mul]
      simp only [OrientedB.topLeft, OrientedB.topRight, OrientedB.bottomLeft,
        OrientedB.bottomRight]
      rw [scaleAboutM_fix_x, scaleAboutM_fix_self]
    · simp only [scaleGroupMatrix, scaleComp]
      norm_num
      simp only [Mat.translate, Mat.rotate, Mat.scale, Mat.mul_id]
      rw [scaleAboutM_fold, scaleAboutM_mul_def, Mat.apply_mul]
      simp only [OrientedB.center]
      rw [scaleAboutM_fix_self, scaleAboutM_fix_self]
  | middleLeft =>
    constructor
    · simp only [oppositeAnchor, scaleGroupMatrix, scaleComp]
      norm_num
      simp only [Mat.translate, Mat.rotate, Mat.scale, Mat.mul_id]
      rw [scaleAboutM_fold]
      simp only [OrientedB.topLeft, OrientedB.topRight, OrientedB.bottomLeft,
        OrientedB.bottomRight]
      rw [midPt_worldPt,
        show ((b.innerBounds.x + b.innerBounds.width)
            + (b.innerBounds.x + b.innerBounds.width)) / 2
          = b.innerBounds.x + b.innerBounds.width from by ring,
        scaleAboutM_fix_x]
    · simp only [scaleGroupMatrix, scaleComp]
      norm_num
      simp only [Mat.translate, Mat.rotate, Mat.scale, Mat.mul_id]
      rw [scaleAboutM_fold]
      simp only [OrientedB.center]
      rw [scaleAboutM_fix_self]
  | middleCenter =>
    constructor
    · simp only [oppositeAnchor, scaleGroupMatrix, scaleComp]
      norm_num
      exact Mat.id_apply _
    · simp only [scaleGroupMatrix, scaleComp]
      norm_num
      exact Mat.id_apply _
  | middleRight =>
    constructor
    · simp only [oppositeAnchor, scaleGroupMatrix, scaleComp]
      norm_num
      simp only [Mat.translate, Mat.rotate, Mat.scale, Mat.mul_id]
      rw [scaleAboutM_fold]
      simp only [OrientedB.topLeft, OrientedB.topRight, OrientedB.bottomLeft,
        OrientedB.bottomRight]
      rw [midPt_worldPt,
        show (b.innerBounds.x + b.innerBounds.x) / 2 = b.innerBounds.x
          from by ring,
        scaleAboutM_fix_x]
    · simp only [scaleGroupMatrix, scaleComp]
      norm_num
      simp only [Mat.translate, Mat.rotate, Mat.scale, Mat.mul_id]
      rw [scaleAboutM_fold]
      simp only [OrientedB.center]
      rw [scaleAboutM_fix_self]
  | bottomLeft =>
    constructor
    · simp only [oppositeAnchor, scaleGroupMatrix, scaleComp]
      norm_num
      simp only [Mat.translate, Mat.rotate, Mat.scale, Mat.mul_id]
      rw [scaleAboutM_fold, scaleAboutM_mul_def, Mat.apply_mul]
      simp only [OrientedB.topLeft, OrientedB.topRight, OrientedB.bottomLeft,
        OrientedB.bottomRight]
      rw [scaleAboutM_fix_self, scaleAboutM_fix_y]
    · simp only [scaleGroupMatrix, scaleComp]
      norm_num
      simp only [Mat.translate, Mat.rotate, Mat.scale, Mat.mul_id]
      rw [scaleAboutM_fold, scaleAboutM_mul_def, Mat.apply_mul]
      simp only [OrientedB.center]
      rw [scaleAboutM_fix_self, scaleAboutM_fix_self]
  | bottomCenter =>
    constructor
    · simp only [oppositeAnchor, scaleGroupMatrix, scaleComp]
      norm_num
      simp only [Mat.translate, Mat.rotate, Mat.scale, Mat.mul_id]
      rw [scaleAboutM_fold]
      simp only [OrientedB.topLeft, OrientedB.topRight, OrientedB.bottomLeft,
        OrientedB.bottomRight]
      rw [midPt_worldPt,
        show (b.innerBounds.y + b.innerBounds.y) / 2 = b.innerBounds.y
          from by ring,
        scaleAboutM_fix_y]
    · simp only [scaleGroupMatrix, scaleComp]
      norm_num
      simp only [Mat.translate, Mat.rotate, Mat.scale, Mat.mul_id]
      rw [scaleAboutM_fold]
      simp only [OrientedB.center]
      rw [scaleAboutM_fix_self]
  | bottomRight =>
    constructor
    · simp only [oppositeAnchor, scaleGroupMatrix, scaleComp]
      norm_num
      simp only [Mat.translate, Mat.rotate, Mat.scale, Mat.mul_id]
      rw [scaleAboutM_fold, scaleAboutM_mul_def, Mat.apply_mul]
      simp only [OrientedB.topLeft, OrientedB.topRight, OrientedB.bottomLeft,
        OrientedB.bottomRight]
      rw [scaleAboutM_fix_self, scaleAboutM_fix_self]
    · simp only [scaleGroupMatrix, scaleComp]
      norm_num
      simp only [Mat.translate, Mat.rotate, Mat.scale, Mat.mul_id]
      rw [scaleAboutM_fold, scaleAboutM_mul_def, Mat.apply_mul]
      simp only [OrientedB.center]
      rw [scaleAboutM_fix_self, scaleAboutM_fix_self]

/-- C2 at a concrete input: the 100 by 50 unrotated bounds is non-degenerate
and the pivot invariant holds there for the bottomRight handle. -/
theorem scaleGroup_pivot_invariant_witness :
    ((⟨⟨0, 0, 100, 50⟩, 0⟩ : OrientedB).innerBounds.width ≠ 0 ∧
      (⟨⟨0, 0, 100, 50⟩, 0⟩ : OrientedB).innerBounds.height ≠ 0) ∧
    ((scaleGroupMatrix ⟨⟨0, 0, 100, 50⟩, 0⟩ false ScaleHandle.bottomRight
        ⟨150, 50⟩).apply
          (oppositeAnchor ⟨⟨0, 0, 100, 50⟩, 0⟩ ScaleHandle.bottomRight)
        = oppositeAnchor ⟨⟨0, 0, 100, 50⟩, 0⟩ ScaleHandle.bottomRight ∧
      (scaleGroupMatrix ⟨⟨0, 0, 100, 50⟩, 0⟩ true ScaleHandle.bottomRight
        ⟨150, 50⟩).apply (⟨⟨0, 0, 100, 50⟩, 0⟩ : OrientedB).center
        = (⟨⟨0, 0, 100, 50⟩, 0⟩ : OrientedB).center) :=
  ⟨⟨by norm_num, by norm_num⟩,
    scaleGroup_pivot_invariant ⟨⟨0, 0, 100, 50⟩, 0⟩ ScaleHandle.bottomRight
      ⟨150, 50⟩ (by norm_num) (by norm_num)⟩

/-- C8: for the single 100 by 50 unrotated rectangle at the origin, dragging
the bottomRight handle by (+50, 0) (the handle sits at (100, 50), the pointer
at (150, 50)) with centeredScaling off yields bounds of width 150 and height
50 whose top-left corner, both as inner coordinates and as the derived world
corner, stays at (0, 0). -/
theorem scaleGroup_bottomRight_example :
    (scaleGroup demoState ScaleHandle.bottomRight
        ⟨150, 50⟩).groupBounds.innerBounds.width = 150 ∧
    (scaleGroup demoState ScaleHandle.bottomRight
        ⟨150, 50⟩).groupBounds.innerBounds.height = 50 ∧
    (scaleGroup demoState ScaleHandle.bottomRight
        ⟨150, 50⟩).groupBounds.innerBounds.x = 0 ∧
    (scaleGroup demoState ScaleHandle.bottomRight
        ⟨150, 50⟩).groupBounds.innerBounds.y = 0 ∧
    (scaleGroup demoState ScaleHandle.bottomRight
        ⟨150, 50⟩).groupBounds.topLeft = ⟨0, 0⟩ := by
  have hM : scaleGroupMatrix demoState.groupBounds demoState.centeredScaling
      ScaleHandle.bottomRight ⟨150, 50⟩ = ⟨3/2, 0, 0, 1, 0, 0⟩ := by
    norm_num [scaleGroupMatrix, scaleComp, handlePosition, demoState, demoRect,
      OrientedB.topLeft, OrientedB.topRight, OrientedB.bottomLeft,
      OrientedB.bottomRight, OrientedB.center, worldPt, rotationM, translationM,
      scalingM, Mat.translate, Mat.rotate, Mat.scale, Mat.mul_def, Mat.mul,
      Mat.id, Mat.apply]
  have hB : (scaleGroup demoState ScaleHandle.bottomRight ⟨150, 50⟩).groupBounds
      = calculateGroupOrientedBounds
          (prependTransform demoState.group
            (scaleGroupMatrix demoState.groupBounds demoState.centeredScaling
              ScaleHandle.bottomRight ⟨150, 50⟩))
          demoState.groupBounds.rotation := rfl
  rw [hB, hM]
  norm_num [calculateGroupOrientedBounds, prependTransform,
    calculateTransformedCorners, demoState, demoObj, demoRect, maxValue,
    Mat.rotate, Mat.mul_def, Mat.mul, Mat.id, Mat.apply, rotationM,
    List.foldl, OrientedB.topLeft, worldPt]
